import Mathlib

/-!
Shallow embedding of the bulk-restore helpers of this repository: the
rate-limited external storage decorator, the TiDB schema snapshot loader
with its readiness synchronizer, and the GC life-time configuration
round trip.  Definitions mirror the Go source; the external
collaborators (the token-bucket limiter of the rate package and the SQL
execution of the configuration store) are modelled from the
specification, as marked on each definition.
-/

/-- Fixed burst constant of the rate limiter (source constant burstLimit). -/
def burstLimit : Nat := 1000 * 1000 * 1000

/-- Modelled from the spec: the token-bucket limiter provided by the
external rate package (a capacity of tokens refilled at a fixed rate;
consuming N tokens models permission to transfer N bytes).  The field
limit is the refill rate in tokens per second, burst the capacity and
tokens the current fill. -/
structure Limiter where
  limit : ℚ
  burst : Nat
  tokens : ℚ
deriving DecidableEq

/-- Modelled from the spec: a freshly constructed token bucket starts full. -/
def NewLimiter (limit : ℚ) (burst : Nat) : Limiter :=
  Limiter.mk limit burst (burst : ℚ)

/-- Modelled from the spec: AllowN consumes n tokens when that many are
available and reports whether it did; time does not advance here because
the source calls it immediately at construction. -/
def Limiter.allowN (l : Limiter) (n : Nat) : Bool × Limiter :=
  if (n : ℚ) ≤ l.tokens then (true, Limiter.mk l.limit l.burst (l.tokens - (n : ℚ)))
  else (false, l)

/-- Modelled from the spec: the blocking delay WaitN imposes to account
for n tokens at the configured rate, given the current fill. -/
def Limiter.waitDelay (l : Limiter) (n : Nat) : ℚ :=
  if (n : ℚ) ≤ l.tokens then 0 else ((n : ℚ) - l.tokens) / l.limit

/-- Opaque handle of a writer produced by the wrapped sink. -/
structure ExternalFileWriter where
  id : Nat
deriving DecidableEq

/-- External storage values: a plain sink, or the withRatelimit
decorator wrapping an inner storage with a byte-per-second ceiling. -/
inductive ExternalStorage where
  | base (id : Nat)
  | ratelimited (inner : ExternalStorage) (ratelimitBps : Nat)
deriving DecidableEq

/-- WithRatelimit (source): a zero ceiling returns the inner sink
itself, otherwise the decorator wraps it. -/
def WithRatelimit (inner : ExternalStorage) (ratelimit : Nat) : ExternalStorage :=
  if ratelimit = 0 then inner else ExternalStorage.ratelimited inner ratelimit

/-- A writer as returned by Create: either the plain sink writer, or the
withRateLimitWriter wrapper holding an optional limiter. -/
inductive FileWriter where
  | plain (w : ExternalFileWriter)
  | limited (w : ExternalFileWriter) (limiter : Option Limiter)
deriving DecidableEq

/-- Create (source withRatelimit.Create).  The second argument is the
result of the wrapped sink performing its own Create.  An inner error is
propagated; otherwise the inner writer is wrapped, and with a positive
ceiling the wrapper holds a limiter built with rate Ratelimit and burst
burstLimit from which the full burst is immediately consumed by AllowN. -/
def ExternalStorage.create (s : ExternalStorage)
    (innerRes : Except Nat ExternalFileWriter) : Except Nat FileWriter :=
  match s with
  | ExternalStorage.base _ => innerRes.map FileWriter.plain
  | ExternalStorage.ratelimited _ rl =>
    match innerRes with
    | Except.error e => Except.error e
    | Except.ok w =>
      if 0 < rl then
        Except.ok (FileWriter.limited w
          (some ((NewLimiter ((rl : Nat) : ℚ) burstLimit).allowN burstLimit).2))
      else
        Except.ok (FileWriter.limited w none)

/-- Result of one Write call: the returned byte count, the returned
error, and whether the post-write WaitN was invoked at all. -/
structure WriteOutcome where
  n : Nat
  err : Option Nat
  waited : Bool
deriving DecidableEq

/-- Write (source withRateLimitWriter.Write).  innerN and innerErr model
the inner sink response for this call; waitErr models the outcome of the
post-write WaitN, where some e means the caller-supplied context was
canceled with error e.  With no limiter the call is a plain delegation;
an inner error returns immediately with no wait; otherwise the wait runs
and its cancellation error, if any, is returned next to the count. -/
def FileWriter.write (w : FileWriter) (innerN : Nat)
    (innerErr : Option Nat) (waitErr : Option Nat) : WriteOutcome :=
  match w with
  | FileWriter.plain _ => WriteOutcome.mk innerN innerErr false
  | FileWriter.limited _ none => WriteOutcome.mk innerN innerErr false
  | FileWriter.limited _ (some _) =>
    match innerErr with
    | some e => WriteOutcome.mk innerN (some e) false
    | none =>
      match waitErr with
      | some e => WriteOutcome.mk innerN (some e) true
      | none => WriteOutcome.mk innerN none true

/-- Schema states of the external TiDB model package as read by the
loader; only the public state counts as available. -/
inductive SchemaState where
  | stateNone
  | deleteOnly
  | writeOnly
  | writeReorganization
  | public
deriving DecidableEq

/-- Mirror of the fields of the external model.ColumnInfo that the
source reads. -/
structure ColumnInfo where
  Name : String
  Flag : Nat
deriving DecidableEq

/-- mysql.HasPriKeyFlag (external constant PriKeyFlag = 2). -/
def hasPriKeyFlag (flag : Nat) : Bool := flag &&& 2 != 0

/-- mysql.HasAutoIncrementFlag (external constant AutoIncrementFlag = 512). -/
def hasAutoIncrementFlag (flag : Nat) : Bool := flag &&& 512 != 0

/-- Mirror of the fields of the external model.TableInfo that the source
reads. -/
structure ModelTableInfo where
  ID : Int
  Name : String
  Columns : List ColumnInfo
  Indices : List Nat
  PKIsHandle : Bool
  State : SchemaState
deriving DecidableEq

/-- Mirror of the fields of the external model.DBInfo that the source
reads, as enumerated by infoschema.AllSchemas. -/
structure ModelDBInfo where
  ID : Int
  Name : String
  State : SchemaState
  Tables : List ModelTableInfo
deriving DecidableEq

/-- Source struct TidbTableInfo. -/
structure TidbTableInfo where
  ID : Int
  Name : String
  Columns : Nat
  Indices : Nat
  Available : Bool
  core : ModelTableInfo
deriving DecidableEq

/-- Source struct TidbDBInfo; the Go map over table names is represented
as an association list. -/
structure TidbDBInfo where
  ID : Int
  Name : String
  Tables : List (String × TidbTableInfo)
  Available : Bool
deriving DecidableEq

/-- Go map assignment used at dbInfo.Tables[tableName] = tableInfo:
replace the entry with the same key, else append. -/
def mapInsert (m : List (String × TidbTableInfo)) (k : String)
    (v : TidbTableInfo) : List (String × TidbTableInfo) :=
  match m with
  | [] => [(k, v)]
  | (k0, v0) :: rest =>
    if k0 = k then (k, v) :: rest else (k0, v0) :: mapInsert rest k v

/-- The table snapshot built by LoadSchemaInfo for one table of the
schema: counts of columns and indices, availability from the schema
state, and the back-reference core. -/
def buildTableInfo (tbl : ModelTableInfo) : TidbTableInfo :=
  TidbTableInfo.mk tbl.ID tbl.Name tbl.Columns.length tbl.Indices.length
    (tbl.State == SchemaState.public) tbl

/-- The database snapshot built by LoadSchemaInfo for one matching
schema. -/
def buildDBInfo (db : ModelDBInfo) : TidbDBInfo :=
  TidbDBInfo.mk db.ID db.Name
    (db.Tables.foldl (fun acc tbl => mapInsert acc tbl.Name (buildTableInfo tbl)) [])
    (db.State == SchemaState.public)

/-- One step of the schema scan of LoadSchemaInfo: a matching name
overwrites the accumulator, everything else is skipped. -/
def loadStep (database : String) (acc : Option TidbDBInfo)
    (db : ModelDBInfo) : Option TidbDBInfo :=
  if db.Name = database then some (buildDBInfo db) else acc

/-- LoadSchemaInfo (source): enumerate all schemas and return the
snapshot of the last one whose name matches, or none when no schema
matches. -/
def LoadSchemaInfo (schemas : List ModelDBInfo) (database : String) : Option TidbDBInfo :=
  schemas.foldl (loadStep database) none

/-- Source method WithExplicitPrimaryKey: some column carries the
primary-key flag. -/
def TidbTableInfo.WithExplicitPrimaryKey (tbl : TidbTableInfo) : Bool :=
  tbl.core.Columns.any (fun col => hasPriKeyFlag col.Flag)

/-- Source method WithIntegerPrimaryKey: reads the stored PKIsHandle
field of the core table definition. -/
def TidbTableInfo.WithIntegerPrimaryKey (tbl : TidbTableInfo) : Bool :=
  tbl.core.PKIsHandle

/-- Source method WithAutoIncrPrimaryKey: some column carries both the
primary-key flag and the auto-increment flag. -/
def TidbTableInfo.WithAutoIncrPrimaryKey (tbl : TidbTableInfo) : Bool :=
  tbl.core.Columns.any (fun col => hasPriKeyFlag col.Flag && hasAutoIncrementFlag col.Flag)

/-- The readiness test of the SyncSchema loop body: done stays true
exactly when every table snapshot is available. -/
def allTablesAvailable (db : TidbDBInfo) : Bool :=
  db.Tables.all (fun p => p.2.Available)

/-- Attempt bound of the SyncSchema loop (source literal 100). -/
def maxSyncAttempts : Nat := 100

/-- Sleep interval in seconds between attempts (source literal 5). -/
def syncSleepSeconds : Nat := 5

/-- The polling loop of SyncSchema.  load i is the result of the i-th
LoadSchemaInfo call of this run; a none result makes the loop body
dereference a nil pointer when ranging over Tables, modelled as
Except.error ().  On normal exit the pair holds the number of in-loop
LoadSchemaInfo calls and the number of sleeps of syncSleepSeconds
seconds performed. -/
def syncLoop (load : Nat → Option TidbDBInfo) : Nat → Nat → Except Unit (Nat × Nat)
  | i, 0 => Except.ok (i, i)
  | i, rem + 1 =>
    match load i with
    | none => Except.error ()
    | some dbInfo =>
      if allTablesAvailable dbInfo then Except.ok (i + 1, i)
      else syncLoop load (i + 1) rem

/-- Observable trace of one SyncSchema run: the returned snapshot, the
number of LoadSchemaInfo calls made inside the loop, the total number of
LoadSchemaInfo calls including the final reload, and the number of
sleeps performed. -/
structure SyncTrace where
  snapshot : Option TidbDBInfo
  loopLoads : Nat
  totalLoads : Nat
  sleeps : Nat
deriving DecidableEq

/-- SyncSchema (source): run the polling loop for at most
maxSyncAttempts attempts, then unconditionally call LoadSchemaInfo once
more and return that fresh snapshot. -/
def SyncSchema (load : Nat → Option TidbDBInfo) : Except Unit SyncTrace :=
  match syncLoop load 0 maxSyncAttempts with
  | Except.error _ => Except.error ()
  | Except.ok (loads, sleeps) =>
    Except.ok (SyncTrace.mk (load loads) loads (loads + 1) sleeps)

/-- The single-quote character of the Sprintf format used by
UpdateGCLifeTime. -/
def quoteChar : Char := Char.ofNat 39

/-- Statement text of the UPDATE up to and including the quote that
opens the value literal. -/
def updateStmtHead : List Char :=
  "UPDATE mysql.tidb SET VARIABLE_VALUE = ".toList ++ [quoteChar]

/-- Statement text of the UPDATE after the quote that closes the value
literal. -/
def updateStmtRest : List Char :=
  " WHERE VARIABLE_NAME = ".toList ++ [quoteChar]
    ++ "tikv_gc_life_time".toList ++ [quoteChar]

/-- The fmt.Sprintf of UpdateGCLifeTime: the value is spliced verbatim
between single quotes with no escaping. -/
def updateGCStmt (v : List Char) : List Char :=
  updateStmtHead ++ v ++ quoteChar :: updateStmtRest

/-- Consume an exact expected text from the front of the input. -/
def dropExact : List Char → List Char → Option (List Char)
  | [], rest => some rest
  | _ :: _, [] => none
  | p :: ps, c :: cs => if p = c then dropExact ps cs else none

/-- Scan a single-quoted SQL string literal: the literal ends at the
first quote character; returns the literal and the remainder after that
quote. -/
def scanLiteral : List Char → Option (List Char × List Char)
  | [] => none
  | c :: cs =>
    if c = quoteChar then some ([], cs)
    else
      match scanLiteral cs with
      | none => none
      | some (lit, rest) => some (c :: lit, rest)

/-- Modelled from the spec: the target database collaborator executing
the UPDATE statement of the retention-horizon variable.  The statement
is accepted exactly when it has the fixed UPDATE shape with a
single-quoted value literal; on success the stored configuration value
becomes that literal, otherwise an error is returned and the store is
untouched. -/
def execUpdateGCLifeTime (stmt : List Char) : Except Unit (List Char) :=
  match dropExact updateStmtHead stmt with
  | none => Except.error ()
  | some rest =>
    match scanLiteral rest with
    | none => Except.error ()
    | some (lit, rest2) =>
      if rest2 = updateStmtRest then Except.ok lit else Except.error ()

/-- UpdateGCLifeTime (source): build the statement with Sprintf and
execute it.  The first argument is the stored value before the call; on
success the new stored value is returned, on failure the error is
propagated and the store keeps its old value. -/
def UpdateGCLifeTime (_store : List Char) (gcLifeTime : List Char) : Except Unit (List Char) :=
  match execUpdateGCLifeTime (updateGCStmt gcLifeTime) with
  | Except.ok v => Except.ok v
  | Except.error _ => Except.error ()

/-- ObtainGCLifeTime (source): the SELECT returns the stored value of
the variable verbatim. -/
def ObtainGCLifeTime (store : List Char) : List Char := store

/-- Concrete table definition: one integer column flagged primary key
and auto increment (flag 514 = 2 + 512), usable as row handle, fully
propagated. -/
def coreReady : ModelTableInfo :=
  ModelTableInfo.mk 1 "t" [ColumnInfo.mk "c" 514] [] true SchemaState.public

/-- The same table definition while its DDL is still propagating. -/
def corePending : ModelTableInfo :=
  ModelTableInfo.mk 1 "t" [ColumnInfo.mk "c" 514] [] true SchemaState.writeOnly

/-- Concrete table definition with no primary-key-flagged column. -/
def coreNoPK : ModelTableInfo :=
  ModelTableInfo.mk 2 "u" [ColumnInfo.mk "c" 0] [] false SchemaState.public

def tblReady : TidbTableInfo := buildTableInfo coreReady

def tblPending : TidbTableInfo := buildTableInfo corePending

def tblNoPK : TidbTableInfo := buildTableInfo coreNoPK

def dbReady : TidbDBInfo := TidbDBInfo.mk 1 "testdb" [("t", tblReady)] true

def dbNotReady : TidbDBInfo := TidbDBInfo.mk 1 "testdb" [("t", tblPending)] true

/-- Oracle whose tables are available from the first poll on. -/
def loadAlwaysReady : Nat → Option TidbDBInfo := fun _ => some dbReady

/-- Oracle whose tables never become available. -/
def loadNever : Nat → Option TidbDBInfo := fun _ => some dbNotReady

/-- Oracle unavailable on the first poll and available afterwards. -/
def loadSeq : Nat → Option TidbDBInfo :=
  fun i => if i = 0 then some dbNotReady else some dbReady

/-- Oracle for a database that does not exist. -/
def loadAbsent : Nat → Option TidbDBInfo := fun _ => none

/-- Concrete schema entry of the enumerated schemas. -/
def dbModelEx : ModelDBInfo := ModelDBInfo.mk 1 "testdb" SchemaState.public [coreReady]

/-- A value containing a single quote. -/
def badGC : List Char := ['a', quoteChar, 'b']

lemma syncLoop_stuck (load : Nat → Option TidbDBInfo)
    (h : ∀ j, ∃ d, load j = some d ∧ allTablesAvailable d = false) :
    ∀ (rem i : Nat), syncLoop load i rem = Except.ok (i + rem, i + rem) := by
  intro rem
  induction rem with
  | zero => intro i; simp [syncLoop]
  | succ n ih =>
    intro i
    obtain ⟨d, hd, hna⟩ := h i
    simp only [syncLoop, hd, hna]
    rw [if_neg (by simp)]
    rw [ih (i + 1)]
    have e1 : i + 1 + n = i + (n + 1) := by omega
    rw [e1]

lemma syncLoop_hits (load : Nat → Option TidbDBInfo) (k : Nat) (db : TidbDBInfo)
    (hk : load k = some db) (hav : allTablesAvailable db = true)
    (hbefore : ∀ j, j < k → ∃ d, load j = some d ∧ allTablesAvailable d = false) :
    ∀ (rem i : Nat), i ≤ k → k < i + rem → syncLoop load i rem = Except.ok (k + 1, k) := by
  intro rem
  induction rem with
  | zero => intro i h1 h2; omega
  | succ n ih =>
    intro i h1 h2
    rcases Nat.eq_or_lt_of_le h1 with heq | hlt
    · subst heq
      simp [syncLoop, hk, hav]
    · obtain ⟨d, hd, hna⟩ := hbefore i hlt
      simp only [syncLoop, hd, hna]
      rw [if_neg (by simp)]
      exact ih (i + 1) (by omega) (by omega)

/-- C10: when LoadSchemaInfo yields a nil snapshot on the first poll
(database not yet created or metadata read failure), SyncSchema
dereferences it while ranging over Tables and is not total: the run
panics instead of treating the absent database as a transient state. -/
theorem syncSchema_nil_deref (load : Nat → Option TidbDBInfo) (h : load 0 = none) :
    SyncSchema load = Except.error () := by
  have h1 : syncLoop load 0 maxSyncAttempts = Except.error () := by
    rw [show maxSyncAttempts = 99 + 1 from rfl]
    simp [syncLoop, h]
  simp [SyncSchema, h1]

/-- C10 witness: the constant nil oracle makes SyncSchema panic. -/
theorem syncSchema_nil_deref_witness : SyncSchema loadAbsent = Except.error () :=
  syncSchema_nil_deref loadAbsent rfl

/-- C7: when the inner write fails, the rate-limited writer returns the
inner byte count and that error immediately, and the post-write WaitN is
never invoked, so failed bytes are not charged to the token bucket. -/
theorem write_inner_error_no_wait (w : ExternalFileWriter) (lim : Limiter)
    (n e : Nat) (waitErr : Option Nat) :
    FileWriter.write (FileWriter.limited w (some lim)) n (some e) waitErr
      = WriteOutcome.mk n (some e) false := rfl

/-- C6: when the post-write wait is canceled, the rate-limited writer
returns the byte count the inner sink accepted, which is nonzero,
together with the cancellation error. -/
theorem write_cancel_returns_count (w : ExternalFileWriter) (lim : Limiter)
    (S : Nat) (hS : 0 < S) (cancelErr : Nat) :
    FileWriter.write (FileWriter.limited w (some lim)) S none (some cancelErr)
      = WriteOutcome.mk S (some cancelErr) true ∧ S ≠ 0 :=
  ⟨rfl, hS.ne'⟩

/-- C6 witness: a canceled wait after an accepted 5-byte write. -/
theorem write_cancel_returns_count_witness :
    FileWriter.write (FileWriter.limited (ExternalFileWriter.mk 0)
        (some (Limiter.mk 1 burstLimit 0))) 5 none (some 99)
      = WriteOutcome.mk 5 (some 99) true ∧ 5 ≠ 0 :=
  write_cancel_returns_count (ExternalFileWriter.mk 0) (Limiter.mk 1 burstLimit 0) 5
    (by decide) 99

/-- C8: with a zero ceiling the constructor returns the plain inner sink
itself, so in particular Create behaves identically to the unwrapped
sink. -/
theorem withRatelimit_zero_bypass (inner : ExternalStorage)
    (innerRes : Except Nat ExternalFileWriter) :
    WithRatelimit inner 0 = inner
      ∧ ExternalStorage.create (WithRatelimit inner 0) innerRes
          = ExternalStorage.create inner innerRes :=
  ⟨rfl, rfl⟩

/-- C1 counterexample: a database whose tables are all available after
exactly 0 unsuccessful polls.  The claim predicts exactly 0 + 1 = 1
LoadSchemaInfo call, but SyncSchema performs 2: the successful in-loop
poll plus the unconditional final reload. -/
theorem syncSchema_reload_counterexample :
    SyncSchema loadAlwaysReady = Except.ok (SyncTrace.mk (some dbReady) 1 2 0)
      ∧ (2 : Nat) ≠ 0 + 1 :=
  ⟨rfl, by decide⟩

/-- C1 (amended): when every poll before the k-th is unsuccessful and
the tables are all available from the k-th poll on (k below the attempt
bound), SyncSchema returns a fully available snapshot, performing k + 2
LoadSchemaInfo calls in total: k + 1 polls inside the loop plus one
final reload whose fresh result is returned, with k sleeps in between. -/
theorem syncSchema_ready_reload (load : Nat → Option TidbDBInfo) (k : Nat)
    (dFin : TidbDBInfo) (hk : k < maxSyncAttempts)
    (hbefore : ∀ j, j < k → ∃ d, load j = some d ∧ allTablesAvailable d = false)
    (hafter : ∀ j, k ≤ j → ∃ d, load j = some d ∧ allTablesAvailable d = true)
    (hFin : load (k + 1) = some dFin) :
    SyncSchema load = Except.ok (SyncTrace.mk (some dFin) (k + 1) (k + 2) k)
      ∧ allTablesAvailable dFin = true := by
  obtain ⟨db, hdb, hav⟩ := hafter k (Nat.le_refl k)
  have hloop : syncLoop load 0 maxSyncAttempts = Except.ok (k + 1, k) :=
    syncLoop_hits load k db hdb hav hbefore maxSyncAttempts 0 (Nat.zero_le k) (by omega)
  constructor
  · simp [SyncSchema, hloop, hFin]
  · obtain ⟨d2, hd2, hav2⟩ := hafter (k + 1) (by omega)
    rw [hFin] at hd2
    injection hd2 with hdd
    rw [hdd]
    exact hav2

/-- C1 witness: one unsuccessful poll, then available: 3 loads, 1 sleep. -/
theorem syncSchema_ready_reload_witness :
    SyncSchema loadSeq = Except.ok (SyncTrace.mk (some dbReady) 2 3 1)
      ∧ allTablesAvailable dbReady = true := by
  have h := syncSchema_ready_reload loadSeq 1 dbReady (by decide)
    (fun j hj => by
      have hj0 : j = 0 := by omega
      subst hj0
      exact ⟨dbNotReady, rfl, rfl⟩)
    (fun j hj => by
      cases j with
      | zero => omega
      | succ n => exact ⟨dbReady, rfl, rfl⟩)
    rfl
  exact h

/-- C2: when no poll ever sees all tables available, SyncSchema performs
exactly the maxSyncAttempts = 100 loop attempts, sleeps the fixed
syncSleepSeconds = 5 second interval after each unsuccessful attempt,
returns the last-observed snapshot, which still fails the availability
check, and raises no error.  (The returned snapshot comes from one
additional final LoadSchemaInfo call, the 101st observation.) -/
theorem syncSchema_budget_exhausted (load : Nat → Option TidbDBInfo)
    (dLast : TidbDBInfo)
    (h : ∀ j, ∃ d, load j = some d ∧ allTablesAvailable d = false)
    (hLast : load maxSyncAttempts = some dLast) :
    SyncSchema load
        = Except.ok (SyncTrace.mk (some dLast) maxSyncAttempts (maxSyncAttempts + 1) maxSyncAttempts)
      ∧ allTablesAvailable dLast = false
      ∧ maxSyncAttempts = 100 ∧ syncSleepSeconds = 5 := by
  have h1 : syncLoop load 0 maxSyncAttempts
      = Except.ok (0 + maxSyncAttempts, 0 + maxSyncAttempts) :=
    syncLoop_stuck load h maxSyncAttempts 0
  refine ⟨?_, ?_, rfl, rfl⟩
  · simp [SyncSchema, h1, hLast]
  · obtain ⟨d, hd, hna⟩ := h maxSyncAttempts
    rw [hLast] at hd
    injection hd with hdd
    rw [hdd]
    exact hna

/-- C2 witness: the never-available oracle exhausts the budget. -/
theorem syncSchema_budget_exhausted_witness :
    SyncSchema loadNever = Except.ok (SyncTrace.mk (some dbNotReady) 100 101 100)
      ∧ allTablesAvailable dbNotReady = false := by
  have h := syncSchema_budget_exhausted loadNever dbNotReady
    (fun j => ⟨dbNotReady, rfl, rfl⟩) rfl
  exact ⟨h.1, h.2.1⟩

/-- C3: for a positive ceiling C, Create wraps the writer with a
token-bucket limiter of rate C and capacity burstLimit whose full burst
has been consumed at construction, leaving zero tokens, so a first write
of any size B must wait B / C. -/
theorem ratelimit_create_precharged (C B : Nat) (hC : 0 < C)
    (inner : ExternalStorage) (w : ExternalFileWriter) :
    ExternalStorage.create (ExternalStorage.ratelimited inner C) (Except.ok w)
        = Except.ok (FileWriter.limited w (some (Limiter.mk ((C : Nat) : ℚ) burstLimit 0)))
      ∧ (NewLimiter ((C : Nat) : ℚ) burstLimit).tokens = ((burstLimit : Nat) : ℚ)
      ∧ Limiter.waitDelay (Limiter.mk ((C : Nat) : ℚ) burstLimit 0) B
          = (B : ℚ) / ((C : Nat) : ℚ)
      ∧ burstLimit = 1000 * 1000 * 1000 := by
  refine ⟨?_, rfl, ?_, rfl⟩
  · simp [ExternalStorage.create, hC, NewLimiter, Limiter.allowN]
  · rcases Nat.eq_zero_or_pos B with hB | hB
    · subst hB
      simp [Limiter.waitDelay]
    · have hBq : ¬ ((B : ℚ) ≤ 0) := by
        push_neg
        exact_mod_cast hB
      simp [Limiter.waitDelay, hBq]

/-- C3 witness: ceiling 1, first write of 7 bytes waits 7 / 1. -/
theorem ratelimit_create_precharged_witness :
    ExternalStorage.create (ExternalStorage.ratelimited (ExternalStorage.base 0) 1)
          (Except.ok (ExternalFileWriter.mk 0))
        = Except.ok (FileWriter.limited (ExternalFileWriter.mk 0)
            (some (Limiter.mk ((1 : Nat) : ℚ) burstLimit 0)))
      ∧ (NewLimiter ((1 : Nat) : ℚ) burstLimit).tokens = ((burstLimit : Nat) : ℚ)
      ∧ Limiter.waitDelay (Limiter.mk ((1 : Nat) : ℚ) burstLimit 0) 7
          = ((7 : Nat) : ℚ) / ((1 : Nat) : ℚ)
      ∧ burstLimit = 1000 * 1000 * 1000 :=
  ratelimit_create_precharged 1 7 (by decide) (ExternalStorage.base 0)
    (ExternalFileWriter.mk 0)

/-- C4: a snapshot of a table whose single column carries the
primary-key and auto-increment flags and whose definition records the
integer primary key as row handle (PKIsHandle) reports all three derived
predicates true; a snapshot of a table none of whose columns carries the
primary-key flag (and whose definition accordingly has PKIsHandle false)
reports all three false. -/
theorem primary_key_predicates (tbl1 tbl2 : TidbTableInfo) (col : ColumnInfo)
    (h1 : tbl1.core.Columns = [col])
    (h2 : hasPriKeyFlag col.Flag = true)
    (h3 : hasAutoIncrementFlag col.Flag = true)
    (h4 : tbl1.core.PKIsHandle = true)
    (h5 : ∀ c ∈ tbl2.core.Columns, hasPriKeyFlag c.Flag = false)
    (h6 : tbl2.core.PKIsHandle = false) :
    (tbl1.WithExplicitPrimaryKey = true ∧ tbl1.WithIntegerPrimaryKey = true
      ∧ tbl1.WithAutoIncrPrimaryKey = true)
    ∧ (tbl2.WithExplicitPrimaryKey = false ∧ tbl2.WithIntegerPrimaryKey = false
      ∧ tbl2.WithAutoIncrPrimaryKey = false) := by
  refine ⟨⟨?_, h4, ?_⟩, ⟨?_, h6, ?_⟩⟩
  · simp [TidbTableInfo.WithExplicitPrimaryKey, h1, h2]
  · simp [TidbTableInfo.WithAutoIncrPrimaryKey, h1, h2, h3]
  · simp only [TidbTableInfo.WithExplicitPrimaryKey, List.any_eq_false]
    intro c hc
    simp [h5 c hc]
  · simp only [TidbTableInfo.WithAutoIncrPrimaryKey, List.any_eq_false]
    intro c hc
    simp [h5 c hc]

/-- C4 witness: the concrete ready table and the concrete no-key table. -/
theorem primary_key_predicates_witness :
    (tblReady.WithExplicitPrimaryKey = true ∧ tblReady.WithIntegerPrimaryKey = true
      ∧ tblReady.WithAutoIncrPrimaryKey = true)
    ∧ (tblNoPK.WithExplicitPrimaryKey = false ∧ tblNoPK.WithIntegerPrimaryKey = false
      ∧ tblNoPK.WithAutoIncrPrimaryKey = false) :=
  primary_key_predicates tblReady tblNoPK (ColumnInfo.mk "c" 514) rfl (by decide)
    (by decide) rfl (by decide) rfl

lemma loadFold_none (database : String) :
    ∀ (schemas : List ModelDBInfo) (acc : Option TidbDBInfo),
      (∀ db ∈ schemas, db.Name ≠ database) →
      schemas.foldl (loadStep database) acc = acc := by
  intro schemas
  induction schemas with
  | nil => intro acc _; rfl
  | cons d ds ih =>
    intro acc h
    have hd : d.Name ≠ database := h d (List.mem_cons_self d ds)
    show ds.foldl (loadStep database) (loadStep database acc d) = acc
    rw [show loadStep database acc d = acc from if_neg hd]
    exact ih acc (fun db hdb => h db (List.mem_cons_of_mem d hdb))

lemma loadFold_some (database : String) :
    ∀ (schemas : List ModelDBInfo) (acc : Option TidbDBInfo) (info : TidbDBInfo),
      schemas.foldl (loadStep database) acc = some info →
      acc = some info ∨ ∃ db ∈ schemas, db.Name = database ∧ info = buildDBInfo db := by
  intro schemas
  induction schemas with
  | nil => intro acc info h; exact Or.inl h
  | cons d ds ih =>
    intro acc info h
    rcases ih (loadStep database acc d) info h with hstep | hrest
    · by_cases hd : d.Name = database
      · right
        refine ⟨d, List.mem_cons_self d ds, hd, ?_⟩
        rw [show loadStep database acc d = some (buildDBInfo d) from if_pos hd] at hstep
        exact (Option.some.injEq _ _ ▸ hstep).symm
      · left
        rw [show loadStep database acc d = acc from if_neg hd] at hstep
        exact hstep
    · obtain ⟨db, hdb, hrest2⟩ := hrest
      exact Or.inr ⟨db, List.mem_cons_of_mem d hdb, hrest2⟩

lemma mapInsert_mem :
    ∀ (m : List (String × TidbTableInfo)) (k : String) (v : TidbTableInfo)
      (p : String × TidbTableInfo),
      p ∈ mapInsert m k v → p ∈ m ∨ p = (k, v) := by
  intro m
  induction m with
  | nil =>
    intro k v p h
    simp [mapInsert] at h
    exact Or.inr h
  | cons q rest ih =>
    intro k v p h
    by_cases hq : q.1 = k
    · rw [show mapInsert (q :: rest) k v = (k, v) :: rest from by
        obtain ⟨q1, q2⟩ := q
        simp [mapInsert] at hq ⊢
        intro hne
        exact absurd hq hne] at h
      rcases List.mem_cons.mp h with h1 | h1
      · exact Or.inr h1
      · exact Or.inl (List.mem_cons_of_mem q h1)
    · rw [show mapInsert (q :: rest) k v = q :: mapInsert rest k v from by
        obtain ⟨q1, q2⟩ := q
        simp [mapInsert]
        intro heq
        exact absurd heq hq] at h
      rcases List.mem_cons.mp h with h1 | h1
      · exact Or.inl (h1 ▸ List.mem_cons_self q rest)
      · rcases ih k v p h1 with h2 | h2
        · exact Or.inl (List.mem_cons_of_mem q h2)
        · exact Or.inr h2

lemma buildTables_mem (tbls : List ModelTableInfo) :
    ∀ (acc : List (String × TidbTableInfo)) (p : String × TidbTableInfo),
      p ∈ tbls.foldl (fun a tbl => mapInsert a tbl.Name (buildTableInfo tbl)) acc →
      p ∈ acc ∨ ∃ tbl ∈ tbls, p = (tbl.Name, buildTableInfo tbl) := by
  induction tbls with
  | nil => intro acc p h; exact Or.inl h
  | cons t ts ih =>
    intro acc p h
    rcases ih (mapInsert acc t.Name (buildTableInfo t)) p h with h1 | h1
    · rcases mapInsert_mem acc t.Name (buildTableInfo t) p h1 with h2 | h2
      · exact Or.inl h2
      · exact Or.inr ⟨t, List.mem_cons_self t ts, h2⟩
    · obtain ⟨tbl, htbl, hp⟩ := h1
      exact Or.inr ⟨tbl, List.mem_cons_of_mem t htbl, hp⟩

/-- C9: LoadSchemaInfo returns none, not an error, when no enumerated
schema matches the requested name; any returned snapshot is built from a
matching schema, its availability flag is exactly the test for the
public schema state, every table entry comes from a table of that
schema, and every built table snapshot has its availability flag equal
to the test for the public state of its table. -/
theorem loadSchemaInfo_contract (schemas : List ModelDBInfo) (database : String) :
    ((∀ db ∈ schemas, db.Name ≠ database) → LoadSchemaInfo schemas database = none)
    ∧ (∀ info, LoadSchemaInfo schemas database = some info →
        ∃ db ∈ schemas, db.Name = database ∧ info = buildDBInfo db)
    ∧ (∀ db : ModelDBInfo, (buildDBInfo db).Available = (db.State == SchemaState.public)
        ∧ ∀ p ∈ (buildDBInfo db).Tables, ∃ tbl ∈ db.Tables, p = (tbl.Name, buildTableInfo tbl))
    ∧ (∀ tbl : ModelTableInfo,
        (buildTableInfo tbl).Available = (tbl.State == SchemaState.public)) := by
  refine ⟨fun hno => loadFold_none database schemas none hno, ?_, ?_, fun tbl => rfl⟩
  · intro info hinfo
    rcases loadFold_some database schemas none info hinfo with hcase | hcase
    · exact absurd hcase (by simp)
    · exact hcase
  · intro db
    refine ⟨rfl, ?_⟩
    intro p hp
    rcases buildTables_mem db.Tables [] p hp with h0 | h0
    · simp at h0
    · exact h0

/-- C9 witness: a name with no matching schema yields none. -/
theorem loadSchemaInfo_contract_witness :
    LoadSchemaInfo [dbModelEx] "otherdb" = none := by
  refine (loadSchemaInfo_contract [dbModelEx] "otherdb").1 ?_
  intro db hdb
  rw [List.mem_singleton.mp hdb]
  decide

lemma dropExact_self : ∀ (p r : List Char), dropExact p (p ++ r) = some r := by
  intro p
  induction p with
  | nil => intro r; rfl
  | cons c cs ih => intro r; simp [dropExact, ih]

lemma scanLiteral_clean :
    ∀ (v rest : List Char), quoteChar ∉ v →
      scanLiteral (v ++ quoteChar :: rest) = some (v, rest) := by
  intro v
  induction v with
  | nil => intro rest _; simp [scanLiteral]
  | cons c cs ih =>
    intro rest h
    have hc : ¬ (c = quoteChar) := fun e => h (e ▸ List.mem_cons_self c cs)
    have hcs : quoteChar ∉ cs := fun e => h (List.mem_cons_of_mem c e)
    simp only [List.cons_append, scanLiteral]
    rw [if_neg hc]
    rw [show cs.append (quoteChar :: rest) = cs ++ quoteChar :: rest from rfl]
    rw [ih rest hcs]

/-- C5 counterexample: updating the retention horizon to a value that
contains a single quote breaks the unescaped Sprintf statement: the
update is rejected and the store keeps its old value, so the follow-up
read does not return the written value. -/
theorem gc_roundtrip_counterexample :
    UpdateGCLifeTime "10m".toList badGC = Except.error ()
      ∧ ObtainGCLifeTime "10m".toList ≠ badGC := by
  exact ⟨rfl, by decide⟩

/-- C5 (amended): for every value that contains no single-quote
character, update followed by read returns exactly that value, character
for character, with no reformatting. -/
theorem gc_roundtrip_quote_free (store gc : List Char) (h : quoteChar ∉ gc) :
    UpdateGCLifeTime store gc = Except.ok gc ∧ ObtainGCLifeTime gc = gc := by
  have hstmt : updateGCStmt gc = updateStmtHead ++ (gc ++ quoteChar :: updateStmtRest) := by
    simp [updateGCStmt]
  have hexec : execUpdateGCLifeTime (updateGCStmt gc) = Except.ok gc := by
    unfold execUpdateGCLifeTime
    rw [hstmt, dropExact_self]
    simp [scanLiteral_clean gc updateStmtRest h]
  exact ⟨by simp [UpdateGCLifeTime, hexec], rfl⟩

/-- C5 witness: a plain duration value round-trips unchanged. -/
theorem gc_roundtrip_quote_free_witness :
    UpdateGCLifeTime "10m".toList "720h".toList = Except.ok "720h".toList
      ∧ ObtainGCLifeTime "720h".toList = "720h".toList :=
  gc_roundtrip_quote_free "10m".toList "720h".toList (by decide)
